import Mathlib

/-!
Verification development for the RaspberryPi-CAN repository.

Shallow embedding of the CAN protocol and node-coordination layer:
  * byte-level helpers (big-endian fixed-width integers, as in Python struct),
  * core/commands.py     : VESCCommandEncoder
  * core/protocol.py     : VESCProtocolParser (status decode, parse_message)
  * vesc_can/protocol.py : VESCProtocol (status decode, UART packet codec, CRC16)
  * core/vesc_interface.py : pending-command tracker (response / timeout sweep)
  * vesc_can/node_manager.py : node-id assignment and conflict resolution
  * vesc_can/can_interface.py : bounded receive queue overflow policy
  * vesc_can/can_service.py : cached-status getter (with a small object heap
    to model Python dict aliasing and `.copy()`)

Conventions: Python `bytes` are `List Nat` whose elements are < 256; Python
floats that only ever hold exact fixed-point quotients are modelled as `ℚ`;
Python `int` is `Int` (or `Nat` where the source guarantees non-negativity);
a raised exception is `Except.error`; a function returning `None` is `Option`.
Bit operations of the source on non-negative ints are written arithmetically:
`x & 0xFF` is `x % 256`, `x >> 8` is `x / 256`.
-/

namespace RPiCAN

/-- Two's-complement reading of a 16-bit big-endian unsigned value,
as Python struct.unpack of format &gt;h. -/
def toSigned16 (v : Nat) : Int :=
  if v < 32768 then (v : Int) else (v : Int) - 65536

/-- Two's-complement reading of a 32-bit big-endian unsigned value,
as Python struct.unpack of format &gt;i. -/
def toSigned32 (v : Nat) : Int :=
  if v < 2147483648 then (v : Int) else (v : Int) - 4294967296

/-- Big-endian 16-bit unsigned field at byte offset `i` of payload `d`. -/
def be16 (d : List Nat) (i : Nat) : Nat :=
  d.getD i 0 * 256 + d.getD (i + 1) 0

/-- Big-endian 32-bit unsigned field at byte offset `i` of payload `d`. -/
def be32 (d : List Nat) (i : Nat) : Nat :=
  d.getD i 0 * 16777216 + d.getD (i + 1) 0 * 65536 + d.getD (i + 2) 0 * 256 + d.getD (i + 3) 0

/-- Signed 16-bit big-endian field, struct.unpack format &gt;h. -/
def i16 (d : List Nat) (i : Nat) : Int := toSigned16 (be16 d i)

/-- Signed 32-bit big-endian field, struct.unpack format &gt;i. -/
def i32 (d : List Nat) (i : Nat) : Int := toSigned32 (be32 d i)

/-- Python `int(q)`: truncation of a rational toward zero. -/
def truncRat (q : ℚ) : Int := Int.sign q.num * (q.num.natAbs / q.den : Nat)

/-- Errors raised by the encoders: Python ValueError / VESCProtocolError for
range validation, struct.error for out-of-range packing. -/
inductive EncErr where
  | valueError
  | protocolError
  | structError
deriving DecidableEq, Repr

instance {ε α : Type} [DecidableEq ε] [DecidableEq α] : DecidableEq (Except ε α) := fun x y =>
  match x, y with
  | .ok a, .ok b =>
      if h : a = b then isTrue (by rw [h]) else isFalse (by intro he; injection he; exact h (by assumption))
  | .error a, .error b =>
      if h : a = b then isTrue (by rw [h]) else isFalse (by intro he; injection he; exact h (by assumption))
  | .ok _, .error _ => isFalse (fun h => Except.noConfusion h)
  | .error _, .ok _ => isFalse (fun h => Except.noConfusion h)

/-- Python struct.pack of format &gt;i: 4 big-endian bytes of a 32-bit signed
int; raises struct.error when the value does not fit in int32. -/
def packI32 (v : Int) : Except EncErr (List Nat) :=
  if -2147483648 ≤ v ∧ v < 2147483648 then
    let u := (v % 4294967296).toNat
    .ok [u / 16777216 % 256, u / 65536 % 256, u / 256 % 256, u % 256]
  else .error .structError

namespace CoreCommands

/-!  core/commands.py — class VESCCommandEncoder.
CAN command types: CAN_PACKET_SET_DUTY = 0, CAN_PACKET_SET_CURRENT = 1,
CAN_PACKET_SET_CURRENT_BRAKE = 2.  CAN id is controller_id | (type << 8),
written arithmetically since controller_id is validated to 0..255. -/

/-- VESCCommandEncoder.encode_set_duty_cycle: validates controller id 0..255
and duty in [-1, 1], scales by 100000, packs int32 big-endian. -/
def encode_set_duty_cycle (cid : Int) (duty : ℚ) : Except EncErr (Nat × List Nat) :=
  if ¬ (0 ≤ cid ∧ cid ≤ 255) then .error .valueError
  else if ¬ (-1 ≤ duty ∧ duty ≤ 1) then .error .valueError
  else
    match packI32 (truncRat (duty * 100000)) with
    | .ok bs => .ok (0 * 256 + cid.toNat, bs)
    | .error e => .error e

/-- VESCCommandEncoder.encode_set_current: validates controller id 0..255 and
current in [-100, 100] A, scales by 1000, packs int32 big-endian. -/
def encode_set_current (cid : Int) (current : ℚ) : Except EncErr (Nat × List Nat) :=
  if ¬ (0 ≤ cid ∧ cid ≤ 255) then .error .valueError
  else if ¬ (-100 ≤ current ∧ current ≤ 100) then .error .valueError
  else
    match packI32 (truncRat (current * 1000)) with
    | .ok bs => .ok (1 * 256 + cid.toNat, bs)
    | .error e => .error e

/-- VESCCommandEncoder.encode_set_current_brake: validates controller id and
braking current in [0, 100] A, scales by 1000, packs int32 big-endian. -/
def encode_set_current_brake (cid : Int) (current : ℚ) : Except EncErr (Nat × List Nat) :=
  if ¬ (0 ≤ cid ∧ cid ≤ 255) then .error .valueError
  else if ¬ (0 ≤ current ∧ current ≤ 100) then .error .valueError
  else
    match packI32 (truncRat (current * 1000)) with
    | .ok bs => .ok (2 * 256 + cid.toNat, bs)
    | .error e => .error e

end CoreCommands

namespace VescProtocol

/-!  vesc_can/protocol.py — class VESCProtocol: CAN frame packing and the
set-duty / set-current encoders.  VESCCANCommands: SET_DUTY = 0,
SET_CURRENT = 1, SET_CURRENT_BRAKE = 2, STATUS = 9, STATUS_2 = 14,
STATUS_3 = 15, STATUS_4 = 16, PING = 17, PONG = 18, STATUS_5 = 27,
STATUS_6 = 58; the enum's values are exactly 0..63. -/

/-- VESCProtocol._pack_can_frame: can_id = (command << 8) | (node_id & 0xFF);
raises when the payload exceeds 8 bytes. -/
def pack_can_frame (command : Nat) (nodeId : Nat) (data : List Nat) :
    Except EncErr (Nat × List Nat) :=
  if data.length > 8 then .error .protocolError
  else .ok (command * 256 + nodeId % 256, data)

/-- VESCProtocol.create_can_set_duty: validates duty in [-1, 1], scales by
100000, packs int32 big-endian, SET_DUTY frame. -/
def create_can_set_duty (duty : ℚ) (nodeId : Nat) : Except EncErr (Nat × List Nat) :=
  if ¬ (-1 ≤ duty ∧ duty ≤ 1) then .error .protocolError
  else
    match packI32 (truncRat (duty * 100000)) with
    | .ok bs => pack_can_frame 0 nodeId bs
    | .error e => .error e

/-- VESCProtocol.create_can_set_current: scales by 1000 and packs int32
big-endian into a SET_CURRENT frame.  The source performs no range
validation on the current value. -/
def create_can_set_current (current : ℚ) (nodeId : Nat) : Except EncErr (Nat × List Nat) :=
  match packI32 (truncRat (current * 1000)) with
  | .ok bs => pack_can_frame 1 nodeId bs
  | .error e => .error e

end VescProtocol

namespace CoreProtocol

/-!  core/protocol.py — class VESCProtocolParser.
CANPacketType: CAN_PACKET_STATUS = 0x9, STATUS_2 = 0xE, STATUS_3 = 0xF,
STATUS_4 = 0x10, STATUS_5 = 0x1B, STATUS_6 = 0x3A.
The parser object holds no mutable state (only the constant controller-id
mask), so its methods are pure functions of their arguments. -/

/-- Status 1: RPM, motor current (scale 1/10), duty cycle (scale 1/1000). -/
structure VESCStatus1 where
  rpm : Int
  current : ℚ
  duty_cycle : ℚ
deriving DecidableEq, Repr

/-- Status 2: amp hours and amp hours charged (scale 1/10000). -/
structure VESCStatus2 where
  amp_hours : ℚ
  amp_hours_charged : ℚ
deriving DecidableEq, Repr

/-- Status 3: watt hours and watt hours charged (scale 1/10000). -/
structure VESCStatus3 where
  watt_hours : ℚ
  watt_hours_charged : ℚ
deriving DecidableEq, Repr

/-- Status 4: FET/motor temperature, input current (1/10), PID position (1/50). -/
structure VESCStatus4 where
  temp_fet : ℚ
  temp_motor : ℚ
  current_in : ℚ
  pid_pos_now : ℚ
deriving DecidableEq, Repr

/-- Status 5: tachometer and input voltage (1/10). -/
structure VESCStatus5 where
  tacho_value : Int
  v_in : ℚ
deriving DecidableEq, Repr

/-- Status 6: three ADC channels and PPM, all scale 1/1000. -/
structure VESCStatus6 where
  adc_1 : ℚ
  adc_2 : ℚ
  adc_3 : ℚ
  ppm : ℚ
deriving DecidableEq, Repr

/-- VESCProtocolParser.extract_controller_id: can_id & 0xFF. -/
def extract_controller_id (canId : Nat) : Nat := canId % 256

/-- VESCProtocolParser.extract_packet_type: (can_id >> 8) & 0xFF. -/
def extract_packet_type (canId : Nat) : Nat := canId / 256 % 256

/-- VESCProtocolParser.parse_status_1; raises ValueError below 8 bytes. -/
def parse_status_1 (d : List Nat) : Except EncErr VESCStatus1 :=
  if d.length < 8 then .error .valueError
  else .ok ⟨i32 d 0, (i16 d 4 : ℚ) / 10, (i16 d 6 : ℚ) / 1000⟩

/-- VESCProtocolParser.parse_status_2; raises ValueError below 8 bytes. -/
def parse_status_2 (d : List Nat) : Except EncErr VESCStatus2 :=
  if d.length < 8 then .error .valueError
  else .ok ⟨(i32 d 0 : ℚ) / 10000, (i32 d 4 : ℚ) / 10000⟩

/-- VESCProtocolParser.parse_status_3; raises ValueError below 8 bytes. -/
def parse_status_3 (d : List Nat) : Except EncErr VESCStatus3 :=
  if d.length < 8 then .error .valueError
  else .ok ⟨(i32 d 0 : ℚ) / 10000, (i32 d 4 : ℚ) / 10000⟩

/-- VESCProtocolParser.parse_status_4; raises ValueError below 8 bytes. -/
def parse_status_4 (d : List Nat) : Except EncErr VESCStatus4 :=
  if d.length < 8 then .error .valueError
  else .ok ⟨(i16 d 0 : ℚ) / 10, (i16 d 2 : ℚ) / 10, (i16 d 4 : ℚ) / 10, (i16 d 6 : ℚ) / 50⟩

/-- VESCProtocolParser.parse_status_5; raises ValueError below 6 bytes. -/
def parse_status_5 (d : List Nat) : Except EncErr VESCStatus5 :=
  if d.length < 6 then .error .valueError
  else .ok ⟨i32 d 0, (i16 d 4 : ℚ) / 10⟩

/-- VESCProtocolParser.parse_status_6; raises ValueError below 8 bytes. -/
def parse_status_6 (d : List Nat) : Except EncErr VESCStatus6 :=
  if d.length < 8 then .error .valueError
  else .ok ⟨(i16 d 0 : ℚ) / 1000, (i16 d 2 : ℚ) / 1000, (i16 d 4 : ℚ) / 1000, (i16 d 6 : ℚ) / 1000⟩

/-- The data payload of a parsed message, one constructor per status type. -/
inductive StatusData where
  | s1 (v : VESCStatus1)
  | s2 (v : VESCStatus2)
  | s3 (v : VESCStatus3)
  | s4 (v : VESCStatus4)
  | s5 (v : VESCStatus5)
  | s6 (v : VESCStatus6)
deriving DecidableEq, Repr

/-- Result dict of VESCProtocolParser.parse_message. -/
structure Parsed where
  controller_id : Nat
  type : String
  data : StatusData
deriving DecidableEq, Repr

/-- VESCProtocolParser.parse_message: dispatch on the packet-type byte; an
unknown type returns None; a parse error (short payload) is caught by the
surrounding try/except and also returns None. -/
def parse_message (canId : Nat) (d : List Nat) : Option Parsed :=
  let cid := extract_controller_id canId
  let pt := extract_packet_type canId
  if pt = 9 then
    match parse_status_1 d with
    | .ok v => some ⟨cid, "status_1", .s1 v⟩
    | .error _ => none
  else if pt = 14 then
    match parse_status_2 d with
    | .ok v => some ⟨cid, "status_2", .s2 v⟩
    | .error _ => none
  else if pt = 15 then
    match parse_status_3 d with
    | .ok v => some ⟨cid, "status_3", .s3 v⟩
    | .error _ => none
  else if pt = 16 then
    match parse_status_4 d with
    | .ok v => some ⟨cid, "status_4", .s4 v⟩
    | .error _ => none
  else if pt = 27 then
    match parse_status_5 d with
    | .ok v => some ⟨cid, "status_5", .s5 v⟩
    | .error _ => none
  else if pt = 58 then
    match parse_status_6 d with
    | .ok v => some ⟨cid, "status_6", .s6 v⟩
    | .error _ => none
  else none

end CoreProtocol

namespace VescProtocol

/-!  vesc_can/protocol.py — the status decoders and parse_can_message.
Each parse_can_status_k builds a dict that includes a field
timestamp = time.time(); the wall-clock time observed by that call is made
an explicit argument `now`.  A raised VESCProtocolError is Except.error. -/

/-- Dict built by parse_can_status_1 (rpm, current, duty, timestamp). -/
structure CanStatus1 where
  rpm : Int
  current : ℚ
  duty : ℚ
  timestamp : ℚ
deriving DecidableEq, Repr

/-- Dict built by parse_can_status_2. -/
structure CanStatus2 where
  amp_hours : ℚ
  amp_hours_charged : ℚ
  timestamp : ℚ
deriving DecidableEq, Repr

/-- Dict built by parse_can_status_3. -/
structure CanStatus3 where
  watt_hours : ℚ
  watt_hours_charged : ℚ
  timestamp : ℚ
deriving DecidableEq, Repr

/-- Dict built by parse_can_status_4. -/
structure CanStatus4 where
  temp_fet : ℚ
  temp_motor : ℚ
  current_in : ℚ
  pid_pos : ℚ
  timestamp : ℚ
deriving DecidableEq, Repr

/-- Dict built by parse_can_status_5 (includes the reserved word). -/
structure CanStatus5 where
  tachometer : Int
  v_in : ℚ
  reserved : Int
  timestamp : ℚ
deriving DecidableEq, Repr

/-- Dict built by parse_can_status_6. -/
structure CanStatus6 where
  adc1 : ℚ
  adc2 : ℚ
  adc3 : ℚ
  ppm : ℚ
  timestamp : ℚ
deriving DecidableEq, Repr

/-- VESCProtocol.parse_can_status_1: raises VESCProtocolError below 8 bytes;
`now` is the time.time() value observed by the call. -/
def parse_can_status_1 (now : ℚ) (d : List Nat) : Except EncErr CanStatus1 :=
  if d.length < 8 then .error .protocolError
  else .ok ⟨i32 d 0, (i16 d 4 : ℚ) / 10, (i16 d 6 : ℚ) / 1000, now⟩

/-- VESCProtocol.parse_can_status_2: raises VESCProtocolError below 8 bytes. -/
def parse_can_status_2 (now : ℚ) (d : List Nat) : Except EncErr CanStatus2 :=
  if d.length < 8 then .error .protocolError
  else .ok ⟨(i32 d 0 : ℚ) / 10000, (i32 d 4 : ℚ) / 10000, now⟩

/-- VESCProtocol.parse_can_status_3: raises VESCProtocolError below 8 bytes. -/
def parse_can_status_3 (now : ℚ) (d : List Nat) : Except EncErr CanStatus3 :=
  if d.length < 8 then .error .protocolError
  else .ok ⟨(i32 d 0 : ℚ) / 10000, (i32 d 4 : ℚ) / 10000, now⟩

/-- VESCProtocol.parse_can_status_4: raises VESCProtocolError below 8 bytes. -/
def parse_can_status_4 (now : ℚ) (d : List Nat) : Except EncErr CanStatus4 :=
  if d.length < 8 then .error .protocolError
  else .ok ⟨(i16 d 0 : ℚ) / 10, (i16 d 2 : ℚ) / 10, (i16 d 4 : ℚ) / 10, (i16 d 6 : ℚ) / 50, now⟩

/-- VESCProtocol.parse_can_status_5: raises VESCProtocolError below 8 bytes. -/
def parse_can_status_5 (now : ℚ) (d : List Nat) : Except EncErr CanStatus5 :=
  if d.length < 8 then .error .protocolError
  else .ok ⟨i32 d 0, (i16 d 4 : ℚ) / 10, i16 d 6, now⟩

/-- VESCProtocol.parse_can_status_6: raises VESCProtocolError below 8 bytes. -/
def parse_can_status_6 (now : ℚ) (d : List Nat) : Except EncErr CanStatus6 :=
  if d.length < 8 then .error .protocolError
  else .ok ⟨(i16 d 0 : ℚ) / 1000, (i16 d 2 : ℚ) / 1000, (i16 d 4 : ℚ) / 1000, (i16 d 6 : ℚ) / 1000, now⟩

/-- The category-specific part of a parse_can_message result. -/
inductive CanParsedData where
  | status1 (v : CanStatus1)
  | status2 (v : CanStatus2)
  | status3 (v : CanStatus3)
  | status4 (v : CanStatus4)
  | status5 (v : CanStatus5)
  | status6 (v : CanStatus6)
  | ping
  | pong
  | raw (d : List Nat)
deriving DecidableEq, Repr

/-- Result dict of parse_can_message: command, node_id and category data. -/
structure CanParsed where
  command : Nat
  node_id : Nat
  data : CanParsedData
deriving DecidableEq, Repr

/-- VESCProtocol.parse_can_message: unpacks the frame; an unknown command
byte (not a VESCCANCommands value, i.e. > 63) returns None; status payloads
are parsed by the status decoders, whose VESCProtocolError propagates out of
this call uncaught (modelled as Except.error). -/
def parse_can_message (now : ℚ) (canId : Nat) (d : List Nat) :
    Except EncErr (Option CanParsed) :=
  let command := canId / 256 % 256
  let nodeId := canId % 256
  if command > 63 then .ok none
  else if command = 9 then (parse_can_status_1 now d).map (fun v => some ⟨command, nodeId, .status1 v⟩)
  else if command = 14 then (parse_can_status_2 now d).map (fun v => some ⟨command, nodeId, .status2 v⟩)
  else if command = 15 then (parse_can_status_3 now d).map (fun v => some ⟨command, nodeId, .status3 v⟩)
  else if command = 16 then (parse_can_status_4 now d).map (fun v => some ⟨command, nodeId, .status4 v⟩)
  else if command = 27 then (parse_can_status_5 now d).map (fun v => some ⟨command, nodeId, .status5 v⟩)
  else if command = 58 then (parse_can_status_6 now d).map (fun v => some ⟨command, nodeId, .status6 v⟩)
  else if command = 17 then .ok (some ⟨command, nodeId, .ping⟩)
  else if command = 18 then .ok (some ⟨command, nodeId, .pong⟩)
  else .ok (some ⟨command, nodeId, .raw d⟩)

/-- True when an Except value models a raised (uncaught) exception. -/
def isRaise {ε α : Type} : Except ε α → Bool
  | .error _ => true
  | .ok _ => false

/-- One shift-xor round of the CRC16 table generator (polynomial 0x1021). -/
def crcStep (crc : Nat) : Nat :=
  if crc &&& 0x8000 ≠ 0 then ((crc <<< 1) ^^^ 0x1021) &&& 0xFFFF
  else (crc <<< 1) &&& 0xFFFF

/-- VESCProtocol._generate_crc16_table entry `i`: eight rounds on i << 8. -/
def crc16_tab (i : Nat) : Nat := crcStep^[8] (i <<< 8)

/-- VESCProtocol._crc16: table-driven CRC16 over the bytes, from `crc0`. -/
def crc16 (data : List Nat) (crc0 : Nat) : Nat :=
  data.foldl (fun crc b => ((crc <<< 8) ^^^ crc16_tab (((crc >>> 8) ^^^ b) &&& 0xFF)) &&& 0xFFFF) crc0

/-- Membership in the VESCCommands enum (values 0..152 and 156..159). -/
def isVESCCommand (n : Nat) : Bool := n ≤ 152 || (156 ≤ n && n ≤ 159)

/-- VESCProtocol.create_uart_packet: payload = command byte ++ data;
short packet `02 | len(1) | payload` when the payload is at most 255 bytes,
else long packet `03 | len(2,BE) | payload`; then CRC16 over length..payload
(2 bytes big-endian) and the end byte 0x03.  struct.pack raises when the
command byte exceeds 255 or the long length exceeds 65535. -/
def create_uart_packet (cmd : Nat) (data : List Nat) : Except EncErr (List Nat) :=
  if cmd ≥ 256 then .error .structError
  else
    let payload := cmd :: data
    let n := payload.length
    if n ≤ 255 then
      let packet := 2 :: n :: payload
      let crc := crc16 (packet.drop 1) 0
      .ok (packet ++ [crc / 256, crc % 256, 3])
    else if n ≤ 65535 then
      let packet := 3 :: (n / 256) :: (n % 256) :: payload
      let crc := crc16 (packet.drop 1) 0
      .ok (packet ++ [crc / 256, crc % 256, 3])
    else .error .structError

/-- Tail of VESCProtocol.parse_uart_packet after the start byte fixed the
payload start `ps` and payload length `pl`: bounds check, CRC check over
packet[1 : ps + pl], end-byte check, then command lookup (a value outside
the VESCCommands enum raises ValueError, caught to None). -/
def parse_uart_tail (packet : List Nat) (ps pl : Nat) : Option (Nat × List Nat) :=
  if packet.length < ps + pl + 3 then none
  else
    let payload := (packet.drop ps).take pl
    let crcReceived := packet.getD (ps + pl) 0 * 256 + packet.getD (ps + pl + 1) 0
    let endByte := packet.getD (ps + pl + 2) 0
    if endByte ≠ 3 then none
    else
      let crcCalculated := crc16 ((packet.drop 1).take (ps + pl - 1)) 0
      if crcReceived ≠ crcCalculated then none
      else
        match payload with
        | [] => none
        | c :: rest => if isVESCCommand c then some (c, rest) else none

/-- VESCProtocol.parse_uart_packet: start byte 0x02 (short, 1 length byte)
or 0x03 (long, 2 length bytes big-endian), else None. -/
def parse_uart_packet (packet : List Nat) : Option (Nat × List Nat) :=
  if packet.length < 5 then none
  else if packet.getD 0 0 = 2 then
    if packet.length < 6 then none
    else parse_uart_tail packet 2 (packet.getD 1 0)
  else if packet.getD 0 0 = 3 then
    if packet.length < 7 then none
    else parse_uart_tail packet 3 (packet.getD 1 0 * 256 + packet.getD 2 0)
  else none

end VescProtocol

namespace VescInterface

/-!  core/vesc_interface.py — class VESCInterface command tracking.

Three models, each matching one concern of the source:

* `Tracker` — the pending-command map and the callback discipline as a step
  relation.  Each step is the body of one command_lock critical section:
  registration in send_command, _handle_command_response (pop + success
  callback under the lock), and _handle_command_timeout for one expired id
  (retry bump, or pop + failure callback, under the lock).  Command ids are
  uuid4 strings, so a registered id is fresh: a trace whose registration
  reuses a live or already-completed id is rejected (`none`).

* `Sweep` — the _cleanup_loop timing: a sweep at wall-clock time t expires a
  pending entry when t - timestamp > timeout; with retry budget left it
  resets the timestamp to the sweep time and increments retry_count,
  otherwise it removes the entry and fires the failure callback.

* `Locked` — _check_command_response with the non-reentrant
  threading.Lock made explicit: acquiring a lock the thread already holds
  blocks forever, modelled as `none` (no post-state). -/

/-- A pending entry: target controller, retry counter and budget
(PendingCommand fields used by the callback discipline). -/
structure PendEntry where
  controller : Nat
  retryCount : Nat
  maxRetries : Nat
deriving DecidableEq, Repr

/-- Tracker state: the pending_commands map (insertion ordered, keyed by
command id) and the log of terminal callback invocations
(command id, success flag). -/
structure TrackerSt where
  pending : List (Nat × PendEntry)
  log : List (Nat × Bool)
deriving DecidableEq, Repr

/-- The initial tracker state: nothing pending, no callback fired. -/
def trackerInit : TrackerSt := ⟨[], []⟩

/-- One atomic critical section of the tracker. -/
inductive TrackerStep where
  | register (cmdId : Nat) (e : PendEntry)
  | response (cmdId : Nat)
  | sweepExpire (cmdId : Nat)
deriving DecidableEq, Repr

/-- Remove the binding of `cmdId` (dict pop). -/
def removeKey (cmdId : Nat) (l : List (Nat × PendEntry)) : List (Nat × PendEntry) :=
  l.filter (fun p => p.1 ≠ cmdId)

/-- Execute one tracker step.  `register` demands a fresh uuid (else no
post-state); `response` is the body of _handle_command_response: if the id
is still pending, pop it and fire the success callback; `sweepExpire` is the
body of _handle_command_timeout: absent id does nothing, retry budget left
bumps the counter, otherwise pop and fire the failure callback. -/
def trackerStep : TrackerStep → TrackerSt → Option TrackerSt
  | .register cmdId e, s =>
      if (s.pending.lookup cmdId).isSome ∨ cmdId ∈ s.log.map Prod.fst then none
      else some { s with pending := s.pending ++ [(cmdId, e)] }
  | .response cmdId, s =>
      some (if (s.pending.lookup cmdId).isSome then
              { pending := removeKey cmdId s.pending, log := s.log ++ [(cmdId, true)] }
            else s)
  | .sweepExpire cmdId, s =>
      some (match s.pending.lookup cmdId with
            | none => s
            | some e =>
              if e.retryCount < e.maxRetries then
                { s with pending := s.pending.map (fun p =>
                    if p.1 = cmdId then (p.1, { e with retryCount := e.retryCount + 1 }) else p) }
              else
                { pending := removeKey cmdId s.pending, log := s.log ++ [(cmdId, false)] })

/-- Run a trace of tracker steps from a state. -/
def trackerRun (s : TrackerSt) : List TrackerStep → Option TrackerSt
  | [] => some s
  | st :: rest => match trackerStep st s with
    | some s1 => trackerRun s1 rest
    | none => none

/-- Sweep-timing state of one tracked command: `pending` holds
(timestamp, retry_count) while the entry lives in pending_commands;
`fired` records the times at which the failure callback was invoked. -/
structure SweepSt where
  pending : Option (ℚ × ℕ)
  fired : List ℚ
deriving DecidableEq, Repr

/-- A command issued at time 0 with no callback yet fired. -/
def sweepInit : SweepSt := ⟨some (0, 0), []⟩

/-- One _cleanup_loop visit at wall time `t` for a command with timeout `T`
and max_retries `R`: expired when t - timestamp > T; with budget left,
increment retry_count and reset the timestamp to now; otherwise pop the
entry and invoke the failure callback. -/
def sweepOnce (T : ℚ) (R : ℕ) (s : SweepSt) (t : ℚ) : SweepSt :=
  match s.pending with
  | none => s
  | some (ts, rc) =>
    if T < t - ts then
      if rc < R then { s with pending := some (t, rc + 1) }
      else { pending := none, fired := s.fired ++ [t] }
    else s

/-- Run the cleanup sweeps at the given wall times, in order. -/
def runSweeps (T : ℚ) (R : ℕ) (times : List ℚ) (s : SweepSt) : SweepSt :=
  times.foldl (sweepOnce T R) s

/-- The sweep times start within `g` of time 0 and successive sweeps are at
most `g` apart (the 100 ms cleanup cadence), strictly increasing. -/
def sweepSched (g : ℚ) : ℚ → List ℚ → Prop
  | _, [] => True
  | prev, t :: rest => prev < t ∧ t ≤ prev + g ∧ sweepSched g t rest

/-- State of VESCInterface as seen by _check_command_response: the
(non-reentrant) command_lock, the pending map in insertion order as
(command id, controller id), and the ids whose success callback fired. -/
structure LockedSt where
  locked : Bool
  pending : List (Nat × Nat)
  succLog : List Nat
deriving DecidableEq, Repr

/-- _handle_command_response called on a state where `locked` records
whether the calling thread already holds command_lock.  `with
self.command_lock` on a held threading.Lock blocks the thread forever
(threading.Lock is not reentrant), modelled as `none`. -/
def handle_command_response (cmdId : Nat) (s : LockedSt) : Option LockedSt :=
  if s.locked then none
  else
    let s1 : LockedSt := { s with locked := true }
    let s2 : LockedSt :=
      if (s1.pending.lookup cmdId).isSome then
        { s1 with pending := s1.pending.filter (fun p => p.1 ≠ cmdId),
                  succLog := s1.succLog ++ [cmdId] }
      else s1
    some { s2 with locked := false }

/-- _check_command_response: under command_lock, scan pending_commands in
order for the first entry whose controller id equals the frame's node id
(can_id & 0xFF) and call _handle_command_response on it — while still
holding command_lock. -/
def check_command_response (canId : Nat) (s : LockedSt) : Option LockedSt :=
  if s.locked then none
  else
    let controllerId := canId % 256
    let s1 : LockedSt := { s with locked := true }
    match s1.pending.find? (fun p => p.2 == controllerId) with
    | some p => handle_command_response p.1 s1
    | none => some { s1 with locked := false }

end VescInterface

namespace NodeManager

/-!  vesc_can/node_manager.py — class VESCNodeManager.
NODE_ID_MIN = 64, NODE_ID_MAX = 127.  The MAC-derived hash (first four bytes
of the SHA-256 of the MAC string) is taken as an opaque `macHash : Nat`. -/

def NODE_ID_MIN : Nat := 64

def NODE_ID_MAX : Nat := 127

/-- VESCNodeManager._generate_node_id_from_mac:
NODE_ID_MIN + hash mod (NODE_ID_MAX - NODE_ID_MIN + 1). -/
def generate_node_id_from_mac (macHash : Nat) : Nat :=
  NODE_ID_MIN + macHash % (NODE_ID_MAX - NODE_ID_MIN + 1)

/-- The manager state used by assignment and conflict resolution: the local
id, the _active_nodes set, and the ids present in _node_registry. -/
structure MgrSt where
  myNodeId : Option Nat
  activeNodes : List Nat
  registry : List Nat
deriving DecidableEq, Repr

/-- VESCNodeManager.register_node: add the id to _active_nodes and record a
registry entry for it. -/
def register_node (nid : Nat) (s : MgrSt) : MgrSt :=
  { s with
    activeNodes := if nid ∈ s.activeNodes then s.activeNodes else s.activeNodes ++ [nid],
    registry := if nid ∈ s.registry then s.registry else s.registry ++ [nid] }

/-- VESCNodeManager._assign_node_id: prefer the MAC-derived id when it is
not in _active_nodes; otherwise take the first free id in the 64..127 band;
when none is free fall back to the preferred id anyway.  The chosen id is
then registered and becomes _my_node_id. -/
def assign_node_id (macHash : Nat) (s : MgrSt) : MgrSt :=
  let preferred := generate_node_id_from_mac macHash
  let chosen :=
    if preferred ∉ s.activeNodes then preferred
    else
      match ((List.range (NODE_ID_MAX - NODE_ID_MIN + 1)).map (· + NODE_ID_MIN)).find?
              (fun c => !(s.activeNodes.contains c)) with
      | some c => c
      | none => preferred
  register_node chosen { s with myNodeId := some chosen }

/-- VESCNodeManager.resolve_node_conflict: remove the current id from
_active_nodes and from the registry, clear _my_node_id, re-run assignment. -/
def resolve_node_conflict (macHash : Nat) (s : MgrSt) : MgrSt :=
  let s1 : MgrSt :=
    match s.myNodeId with
    | some old =>
        { s with activeNodes := s.activeNodes.filter (fun n => n ≠ old),
                 registry := s.registry.filter (fun n => n ≠ old) }
    | none => s
  assign_node_id macHash { s1 with myNodeId := none }

end NodeManager

namespace CanInterface

/-!  vesc_can/can_interface.py — the _receive_worker queue-overflow policy.
receive_queue is a FIFO queue.Queue(maxsize=1000); on queue.Full the worker
drops the oldest buffered frame with get_nowait and admits the new one. -/

/-- Wrapper for CAN messages with timestamps (dataclass CANMessage);
the fields not used by the queue policy are omitted. -/
structure CANMessage where
  arbitration_id : Nat
  data : List Nat
  timestamp : ℚ
deriving DecidableEq, Repr

/-- The _receive_worker enqueue step: put_nowait succeeds while the queue is
below capacity; on queue.Full, get_nowait evicts the oldest frame (head of
the FIFO) and the new frame is enqueued. -/
def enqueueRecv (cap : Nat) (q : List CANMessage) (m : CANMessage) : List CANMessage :=
  if q.length < cap then q ++ [m]
  else
    match q with
    | [] => []
    | _ :: rest => rest ++ [m]

end CanInterface

namespace CanService

/-!  vesc_can/can_service.py — VESCCANService.get_cached_status.
Python dicts are heap objects; status_cache maps a node id to a reference to
its per-node dict.  `.copy()` allocates a fresh object with the same
contents, so mutating the returned dict cannot touch the cached one.  The
heap allocates references below `next`. -/

/-- A per-node status dict: key to value association, newest binding first. -/
abbrev StatusDict := List (String × ℚ)

/-- The object heap: allocated dict objects and the next fresh reference. -/
structure Heap where
  objs : List (Nat × StatusDict)
  next : Nat
deriving Repr

/-- The service state: status_cache as node id to object reference. -/
structure SvcSt where
  cacheRefs : List (Nat × Nat)
deriving Repr

/-- Contents of the dict object behind reference `r`. -/
def heapGet (h : Heap) (r : Nat) : StatusDict := (h.objs.lookup r).getD []

/-- VESCCANService.get_cached_status: under cache_lock, return
`self.status_cache.get(node_id, {}).copy()` — the copy is a freshly
allocated object holding the cached contents (or the empty dict). -/
def get_cached_status (h : Heap) (svc : SvcSt) (node : Nat) : Option Nat × Heap :=
  let contents :=
    match svc.cacheRefs.lookup node with
    | some r => heapGet h r
    | none => []
  (some h.next, ⟨h.objs ++ [(h.next, contents)], h.next + 1⟩)

/-- A caller mutating the dict object behind `r`: set key `k` to `v`. -/
def mutateObj (h : Heap) (r : Nat) (k : String) (v : ℚ) : Heap :=
  { h with objs := h.objs.map (fun p => if p.1 = r then (p.1, (k, v) :: p.2) else p) }

/-- Heap/service well-formedness: every object and every cached reference is
allocated below `next` (so a fresh allocation never aliases a cached dict). -/
def WF (h : Heap) (svc : SvcSt) : Prop :=
  (∀ p ∈ h.objs, p.1 < h.next) ∧ (∀ p ∈ svc.cacheRefs, p.2 < h.next)

end CanService

namespace VescInterface

/-- Callback-discipline invariant of the tracker: no command id occurs twice
in the terminal-callback log, and a pending command has no logged callback
(the entry is removed in the same critical section that fires it). -/
def TrackerInv (s : TrackerSt) : Prop :=
  (s.log.map Prod.fst).Nodup ∧ ∀ p ∈ s.pending, p.1 ∉ s.log.map Prod.fst

/-- Sweep-timing invariant, relative to the time `prev` of the latest sweep
processed so far (issue time is 0): either the entry is still pending with a
retry count within budget, a timestamp bounded by (T+g)·retry_count, and no
expiry missed past `prev`; or the failure callback fired exactly once, after
T and within (T+g)·(R+1). -/
def SweepInv (T g : ℚ) (R : ℕ) (prev : ℚ) (s : SweepSt) : Prop :=
  (∃ ts rc, s.pending = some (ts, rc) ∧ s.fired = [] ∧ rc ≤ R ∧ 0 ≤ ts ∧
      ts ≤ (T + g) * rc ∧ ts ≤ prev ∧ prev ≤ ts + T)
  ∨ (∃ tf, s.pending = none ∧ s.fired = [tf] ∧ T < tf ∧ tf ≤ (T + g) * (R + 1))

end VescInterface

/-!  Theorems.  Each claim's theorem carries the claim id in its doc
comment; helper lemmas are shared and never named by a claim. -/

/-- Helper: a successful association-list lookup comes from a member. -/
theorem lookup_mem {β : Type} (l : List (Nat × β)) (k : Nat) (v : β)
    (h : l.lookup k = some v) : (k, v) ∈ l := by
  induction l with
  | nil => simp [List.lookup] at h
  | cons a t ih =>
    obtain ⟨a1, a2⟩ := a
    rw [List.lookup] at h
    by_cases hk : k = a1
    · subst hk
      simp at h
      subst h
      exact List.mem_cons_self _ _
    · have hb : (k == a1) = false := beq_false_of_ne hk
      rw [hb] at h
      exact List.mem_cons_of_mem _ (ih h)

/-- Helper: every tracker critical section preserves the callback
discipline (no id logged twice, pending ids never logged). -/
theorem trackerStep_inv (st : VescInterface.TrackerStep) (s s' : VescInterface.TrackerSt)
    (h : VescInterface.trackerStep st s = some s') (hinv : VescInterface.TrackerInv s) :
    VescInterface.TrackerInv s' := by
  obtain ⟨hnd, hpl⟩ := hinv
  cases st with
  | register cmdId e =>
    simp only [VescInterface.trackerStep] at h
    split at h
    · exact absurd h (by simp)
    · rename_i hc
      push_neg at hc
      injection h with h
      subst h
      refine ⟨hnd, ?_⟩
      intro p hp
      rcases List.mem_append.mp hp with hold | hnew
      · exact hpl p hold
      · simp at hnew
        rw [hnew]
        exact hc.2
  | response cmdId =>
    simp only [VescInterface.trackerStep] at h
    injection h with h
    subst h
    split
    · rename_i hp
      obtain ⟨v, hv⟩ := Option.isSome_iff_exists.mp hp
      have hmem : (cmdId, v) ∈ s.pending := lookup_mem _ _ _ hv
      have hnotlog : cmdId ∉ s.log.map Prod.fst := hpl _ hmem
      constructor
      · rw [List.map_append]
        rw [List.nodup_append]
        refine ⟨hnd, by simp, ?_⟩
        intro a ha hb
        simp at hb
        rw [hb] at ha
        exact hnotlog ha
      · intro p hpm
        rw [VescInterface.removeKey] at hpm
        rw [List.mem_filter] at hpm
        obtain ⟨hpmem, hpne⟩ := hpm
        rw [List.map_append]
        rw [List.mem_append]
        rintro (hin | hin)
        · exact hpl p hpmem hin
        · simp at hin
          simp at hpne
          exact hpne hin
    · exact ⟨hnd, hpl⟩
  | sweepExpire cmdId =>
    simp only [VescInterface.trackerStep] at h
    injection h with h
    subst h
    split
    · exact ⟨hnd, hpl⟩
    · rename_i e hc
      have hmem : (cmdId, e) ∈ s.pending := lookup_mem _ _ _ hc
      have hnotlog : cmdId ∉ s.log.map Prod.fst := hpl _ hmem
      split
      · rename_i hr
        refine ⟨hnd, ?_⟩
        intro p hpm
        rw [List.mem_map] at hpm
        obtain ⟨q, hq, hqe⟩ := hpm
        have hfst : p.1 = q.1 := by
          by_cases hq1 : q.1 = cmdId
          · rw [if_pos hq1] at hqe
            rw [← hqe]
          · rw [if_neg hq1] at hqe
            rw [← hqe]
        rw [hfst]
        exact hpl q hq
      · rename_i hr
        constructor
        · rw [List.map_append]
          rw [List.nodup_append]
          refine ⟨hnd, by simp, ?_⟩
          intro a ha hb
          simp at hb
          rw [hb] at ha
          exact hnotlog ha
        · intro p hpm
          rw [VescInterface.removeKey] at hpm
          rw [List.mem_filter] at hpm
          obtain ⟨hpmem, hpne⟩ := hpm
          rw [List.map_append]
          rw [List.mem_append]
          rintro (hin | hin)
          · exact hpl p hpmem hin
          · simp at hin
            simp at hpne
            exact hpne hin

/-- Helper: running a trace of tracker critical sections preserves the
callback discipline. -/
theorem trackerRun_inv (tr : List VescInterface.TrackerStep) :
    ∀ (s s' : VescInterface.TrackerSt), VescInterface.trackerRun s tr = some s' →
      VescInterface.TrackerInv s → VescInterface.TrackerInv s' := by
  induction tr with
  | nil =>
    intro s s' h hinv
    injection h with h
    rw [← h]
    exact hinv
  | cons st rest ih =>
    intro s s' h hinv
    rw [VescInterface.trackerRun] at h
    cases hs : VescInterface.trackerStep st s with
    | none => rw [hs] at h; exact absurd h (by simp)
    | some s1 =>
      rw [hs] at h
      exact ih s1 s' h (trackerStep_inv st s s1 hs hinv)

/-- C1 — exactly-once terminal callbacks: in every execution of the step
relation (response handling interleaved with the timeout sweep, each step
one command_lock critical section, registration keyed by fresh uuid4 ids),
no command id appears twice in the callback log — so success and failure
never both fire for one id and no callback fires twice — and an id still
pending has no logged callback, i.e. removal from pending_commands is
atomic with the decision to fire. -/
theorem claim1_exactly_once (tr : List VescInterface.TrackerStep) (s : VescInterface.TrackerSt)
    (h : VescInterface.trackerRun VescInterface.trackerInit tr = some s) :
    (s.log.map Prod.fst).Nodup ∧ ∀ p ∈ s.pending, p.1 ∉ s.log.map Prod.fst :=
  trackerRun_inv tr VescInterface.trackerInit s h ⟨by simp [VescInterface.trackerInit], by
    simp [VescInterface.trackerInit]⟩

/-- Witness for C1: the trace register, response, late timeout sweep for
command id 1 ends with one success callback and an empty pending map. -/
theorem claim1_witness :
    ((VescInterface.TrackerSt.mk [] [(1, true)]).log.map Prod.fst).Nodup ∧
    ∀ p ∈ (VescInterface.TrackerSt.mk [] [(1, true)]).pending,
      p.1 ∉ (VescInterface.TrackerSt.mk [] [(1, true)]).log.map Prod.fst :=
  claim1_exactly_once [.register 1 ⟨74, 0, 1⟩, .response 1, .sweepExpire 1] _ (by rfl)

/-- C2 counterexample — the claimed deadline T·(R+1) + 0.1 is violated:
with timeout T = 0.11 s, max_retries R = 1 and sweeps on the exact 100 ms
grid 0.1, 0.2, 0.3, 0.4 (an admissible sweep schedule), the failure
callback fires at t = 0.4 s, later than 0.11·2 + 0.1 = 0.32 s: each retry
cycle incurs its own sweep-granularity slack, not just the last one. -/
theorem claim2_counterexample :
    VescInterface.sweepSched (1/10) 0 [1/10, 2/10, 3/10, 4/10] ∧
    (VescInterface.runSweeps (11/100) 1 [1/10, 2/10, 3/10, 4/10]
        VescInterface.sweepInit).fired = [2/5] ∧
    (VescInterface.runSweeps (11/100) 1 [1/10, 2/10, 3/10, 4/10]
        VescInterface.sweepInit).pending = none ∧
    ¬ ((2 : ℚ)/5 ≤ 11/100 * (1 + 1) + 1/10) := by
  refine ⟨?_, ?_, ?_, by norm_num⟩
  · simp only [VescInterface.sweepSched]
    norm_num
  · norm_num [VescInterface.runSweeps, VescInterface.sweepOnce, VescInterface.sweepInit]
  · norm_num [VescInterface.runSweeps, VescInterface.sweepOnce, VescInterface.sweepInit]

/-- Helper: one cleanup sweep preserves the sweep-timing invariant. -/
theorem sweepOnce_inv (T g : ℚ) (R : ℕ) (hT : 0 < T) (hg : 0 < g)
    (prev t : ℚ) (s : VescInterface.SweepSt) (hpt : prev < t) (htg : t ≤ prev + g)
    (hinv : VescInterface.SweepInv T g R prev s) :
    VescInterface.SweepInv T g R t (VescInterface.sweepOnce T R s t) := by
  unfold VescInterface.sweepOnce
  rcases hinv with ⟨ts, rc, hp, hf, hrc, hts0, htsb, htsp, hprev⟩ | ⟨tf, hp, hf, htf1, htf2⟩
  · split
    · rename_i heq
      rw [hp] at heq
      exact absurd heq (by simp)
    · rename_i ts' rc' heq
      rw [hp] at heq
      injection heq with heq
      obtain ⟨h1, h2⟩ := Prod.mk.injEq .. ▸ heq
      subst h1
      subst h2
      by_cases hexp : T < t - ts
      · rw [if_pos hexp]
        by_cases hr : rc < R
        · rw [if_pos hr]
          left
          refine ⟨t, rc + 1, rfl, hf, hr, by linarith, ?_, le_refl t, by linarith⟩
          have hx : (T + g) * ((rc : ℚ) + 1) = (T + g) * (rc : ℚ) + (T + g) := by ring
          push_cast
          rw [hx]
          linarith
        · rw [if_neg hr]
          right
          have hrcR : rc = R := le_antisymm hrc (not_lt.mp hr)
          refine ⟨t, rfl, by simp [hf], by linarith, ?_⟩
          have hx : (T + g) * ((R : ℚ) + 1) = (T + g) * (R : ℚ) + (T + g) := by ring
          rw [hx]
          rw [hrcR] at htsb
          linarith
      · rw [if_neg hexp]
        left
        exact ⟨ts, rc, hp, hf, hrc, hts0, htsb, by linarith, by linarith⟩
  · split
    · right
      exact ⟨tf, hp, hf, htf1, htf2⟩
    · rename_i ts' rc' heq
      rw [hp] at heq
      exact absurd heq (by simp)

/-- Helper: running a sweep schedule preserves the sweep-timing invariant,
with the reference time advanced to the last sweep. -/
theorem runSweeps_inv (T g : ℚ) (R : ℕ) (hT : 0 < T) (hg : 0 < g) :
    ∀ (times : List ℚ) (prev : ℚ) (s : VescInterface.SweepSt),
      VescInterface.sweepSched g prev times → VescInterface.SweepInv T g R prev s →
      VescInterface.SweepInv T g R (times.getLastD prev) (VescInterface.runSweeps T R times s) := by
  intro times
  induction times with
  | nil =>
    intro prev s _ hinv
    exact hinv
  | cons t rest ih =>
    intro prev s hsched hinv
    simp only [VescInterface.sweepSched] at hsched
    obtain ⟨h1, h2, h3⟩ := hsched
    rw [List.getLastD_cons]
    have hrun : VescInterface.runSweeps T R (t :: rest) s =
        VescInterface.runSweeps T R rest (VescInterface.sweepOnce T R s t) := rfl
    rw [hrun]
    exact ih t _ h3 (sweepOnce_inv T g R hT hg prev t s h1 h2 hinv)

/-- C2 (amended) — a command issued at time 0 with timeout T and
max_retries R, receiving no response, on any sweep schedule with period at
most g that runs past (T+g)·(R+1), fires the failure callback exactly once,
strictly later than T, and no later than (T+g)·(R+1) — each of the R+1
timeout rounds can incur a full sweep-period of slack, so the deadline is
(T+g)·(R+1), not T·(R+1)+g — and the entry is no longer tracked
afterwards. -/
theorem claim2_amended (T g : ℚ) (R : ℕ) (times : List ℚ) (hT : 0 < T) (hg : 0 < g)
    (hsched : VescInterface.sweepSched g 0 times)
    (hcover : (T + g) * (R + 1) ≤ times.getLastD 0) :
    ∃ tf, (VescInterface.runSweeps T R times VescInterface.sweepInit).fired = [tf] ∧
      (VescInterface.runSweeps T R times VescInterface.sweepInit).pending = none ∧
      T < tf ∧ tf ≤ (T + g) * (R + 1) := by
  have hinv0 : VescInterface.SweepInv T g R 0 VescInterface.sweepInit := by
    left
    exact ⟨0, 0, rfl, rfl, Nat.zero_le R, le_refl 0, by simp, le_refl 0, by linarith⟩
  have hfin := runSweeps_inv T g R hT hg times 0 VescInterface.sweepInit hsched hinv0
  rcases hfin with ⟨ts, rc, hp, hf, hrc, hts0, htsb, htsp, hprev⟩ | ⟨tf, hp, hf, htf1, htf2⟩
  · exfalso
    have hcast : (rc : ℚ) ≤ (R : ℚ) := by exact_mod_cast hrc
    have hTg : (0 : ℚ) < T + g := by linarith
    have h1 : (T + g) * (rc : ℚ) ≤ (T + g) * (R : ℚ) := by nlinarith
    have hx : (T + g) * ((R : ℚ) + 1) = (T + g) * (R : ℚ) + (T + g) := by ring
    rw [hx] at hcover
    linarith
  · exact ⟨tf, hf, hp, htf1, htf2⟩

/-- Witness for C2: T = g = 0.1 s, no retries, sweeps at 0.1 and 0.2; the
amended theorem applied at this concrete schedule. -/
theorem claim2_witness :
    ∃ tf, (VescInterface.runSweeps (1/10) 0 [1/10, 2/10] VescInterface.sweepInit).fired = [tf] ∧
      (VescInterface.runSweeps (1/10) 0 [1/10, 2/10] VescInterface.sweepInit).pending = none ∧
      (1 : ℚ)/10 < tf ∧ tf ≤ (1/10 + 1/10) * (0 + 1) :=
  claim2_amended (1/10) (1/10) 0 [1/10, 2/10] (by norm_num) (by norm_num)
    (by simp only [VescInterface.sweepSched]; norm_num)
    (by simp only [List.getLastD_cons, List.getLastD]; norm_num)

/-- C3 — the response path of VESCInterface deadlocks: with one pending
command for controller 74 and a non-status frame from node 74,
_check_command_response (holding command_lock) calls
_handle_command_response, which tries to acquire the same non-reentrant
lock; no post-state exists (the receive thread blocks forever), so the
matching pending entry is never resolved as a success, contradicting the
claim that the first matching entry is resolved.  The matching entry does
exist, as the second conjunct shows. -/
theorem claim3_response_deadlock :
    VescInterface.check_command_response 74 ⟨false, [(1, 74)], []⟩ = none ∧
    (([((1 : Nat), (74 : Nat))].find? (fun p => p.2 == 74 % 256)).isSome = true) := by
  constructor
  · rfl
  · rfl

/-- C4 — conflict resolution can reassign the very id it just discarded: a
manager with MAC hash 6 (preferred id 70) that holds id 70 and detects a
conflict on it removes 70 from the active set, which makes 70 available
again, and _assign_node_id hands back 70. -/
theorem claim4_resolve_same_id :
    NodeManager.generate_node_id_from_mac 6 = 70 ∧
    (NodeManager.resolve_node_conflict 6 ⟨some 70, [70, 65], [70]⟩).myNodeId = some 70 := by
  constructor
  · rfl
  · rfl

/-- Helper: Python int() of an integer-valued rational is that integer. -/
theorem truncRat_intCast (n : ℤ) : truncRat ((n : ℤ) : ℚ) = n := by
  unfold truncRat
  rw [Rat.num_intCast, Rat.den_intCast]
  simp
  exact Int.sign_mul_abs n

/-- Helper: evaluation of the unvalidated set-current encoder at 200 A. -/
theorem create_can_set_current_at_200 :
    VescProtocol.create_can_set_current 200 5 = .ok (261, [0, 3, 13, 64]) := by
  have h : truncRat ((200 : ℚ) * 1000) = 200000 := by
    have h2 : ((200 : ℚ) * 1000) = ((200000 : ℤ) : ℚ) := by norm_num
    rw [h2, truncRat_intCast]
  unfold VescProtocol.create_can_set_current
  rw [h]
  norm_num [packI32, VescProtocol.pack_can_frame]
  decide

/-- C5 counterexample — VESCProtocol.create_can_set_current performs no
range validation: 200 A is outside the configured drive-current bound
[-100, 100], yet the encoder produces a frame (no validation error),
refuting the claim for this exposed set-current encoder. -/
theorem claim5_counterexample :
    VescProtocol.create_can_set_current 200 5 = .ok (261, [0, 3, 13, 64]) ∧
    ¬ ((-100 : ℚ) ≤ 200 ∧ (200 : ℚ) ≤ 100) := by
  refine ⟨create_can_set_current_at_200, ?_⟩
  intro h
  exact absurd h.2 (by norm_num)

/-- C5 (amended) — the duty encoders (core encode_set_duty_cycle and
vesc_can create_can_set_duty) always reject a duty outside [-1, 1] before
producing a frame, and core encode_set_current always rejects a current
outside [-100, 100]; vesc_can create_can_set_current, however, validates
nothing and produces a frame for 200 A. -/
theorem claim5_amended :
    (∀ (cid : Int) (d : ℚ), ¬ (-1 ≤ d ∧ d ≤ 1) →
      ∃ e, CoreCommands.encode_set_duty_cycle cid d = .error e) ∧
    (∀ (nid : Nat) (d : ℚ), ¬ (-1 ≤ d ∧ d ≤ 1) →
      ∃ e, VescProtocol.create_can_set_duty d nid = .error e) ∧
    (∀ (cid : Int) (c : ℚ), ¬ (-100 ≤ c ∧ c ≤ 100) →
      ∃ e, CoreCommands.encode_set_current cid c = .error e) ∧
    VescProtocol.create_can_set_current 200 5 = .ok (261, [0, 3, 13, 64]) := by
  refine ⟨?_, ?_, ?_, create_can_set_current_at_200⟩
  · intro cid d hd
    unfold CoreCommands.encode_set_duty_cycle
    by_cases hc : 0 ≤ cid ∧ cid ≤ 255
    · rw [if_neg (by simpa using hc), if_pos hd]
      exact ⟨_, rfl⟩
    · rw [if_pos hc]
      exact ⟨_, rfl⟩
  · intro nid d hd
    unfold VescProtocol.create_can_set_duty
    rw [if_pos hd]
    exact ⟨_, rfl⟩
  · intro cid c hc
    unfold CoreCommands.encode_set_current
    by_cases hcid : 0 ≤ cid ∧ cid ≤ 255
    · rw [if_neg (by simpa using hcid), if_pos hc]
      exact ⟨_, rfl⟩
    · rw [if_pos hcid]
      exact ⟨_, rfl⟩

/-- Witness for C5: duty 3/2 and current 150 are rejected by the validating
encoders; the amended theorem applied at these concrete inputs. -/
theorem claim5_witness :
    (∃ e, CoreCommands.encode_set_duty_cycle 74 (3/2) = .error e) ∧
    (∃ e, VescProtocol.create_can_set_duty (3/2) 74 = .error e) ∧
    (∃ e, CoreCommands.encode_set_current 74 150 = .error e) := by
  refine ⟨claim5_amended.1 74 (3/2) ?_, claim5_amended.2.1 74 (3/2) ?_,
    claim5_amended.2.2.1 74 150 ?_⟩
  · intro h
    exact absurd h.2 (by norm_num)
  · intro h
    exact absurd h.2 (by norm_num)
  · intro h
    exact absurd h.2 (by norm_num)

/-- C6 counterexample — an undersized status-1 frame (4 bytes, command byte
9) makes VESCProtocol.parse_can_message raise VESCProtocolError out of the
decode call (the status parsers raise and parse_can_message does not catch),
refuting the claim that the top-level decode never lets an exception
escape. -/
theorem claim6_counterexample :
    VescProtocol.isRaise (VescProtocol.parse_can_message 0 (9 * 256 + 1) [0, 0, 0, 100]) = true ∧
    ([0, 0, 0, 100] : List Nat).length < 8 := by
  exact ⟨rfl, by decide⟩

/-- C6 (amended) — for every status frame with an undersized payload, core's
VESCProtocolParser.parse_message confines the error to that frame and
returns None (its try/except catches the ValueError), while vesc_can's
VESCProtocol.parse_can_message raises a VESCProtocolError out of the decode
call (its caller _handle_can_message catches it per frame).  Both decoders
are pure functions of the frame (and, for vesc_can, of the call time), so a
following decode of a well-formed frame is unaffected.  Required sizes:
8 bytes for all categories, except 6 bytes for core's status 5. -/
theorem claim6_amended (t : ℚ) (nid : Nat) (d : List Nat) (hn : nid < 256) :
    (d.length < 8 →
      CoreProtocol.parse_message (9 * 256 + nid) d = none ∧
      VescProtocol.isRaise (VescProtocol.parse_can_message t (9 * 256 + nid) d) = true) ∧
    (d.length < 8 →
      CoreProtocol.parse_message (14 * 256 + nid) d = none ∧
      VescProtocol.isRaise (VescProtocol.parse_can_message t (14 * 256 + nid) d) = true) ∧
    (d.length < 8 →
      CoreProtocol.parse_message (15 * 256 + nid) d = none ∧
      VescProtocol.isRaise (VescProtocol.parse_can_message t (15 * 256 + nid) d) = true) ∧
    (d.length < 8 →
      CoreProtocol.parse_message (16 * 256 + nid) d = none ∧
      VescProtocol.isRaise (VescProtocol.parse_can_message t (16 * 256 + nid) d) = true) ∧
    (d.length < 8 →
      CoreProtocol.parse_message (58 * 256 + nid) d = none ∧
      VescProtocol.isRaise (VescProtocol.parse_can_message t (58 * 256 + nid) d) = true) ∧
    (d.length < 6 → CoreProtocol.parse_message (27 * 256 + nid) d = none) ∧
    (d.length < 8 →
      VescProtocol.isRaise (VescProtocol.parse_can_message t (27 * 256 + nid) d) = true) := by
  have h9 : (9 * 256 + nid) / 256 % 256 = 9 := by omega
  have h14 : (14 * 256 + nid) / 256 % 256 = 14 := by omega
  have h15 : (15 * 256 + nid) / 256 % 256 = 15 := by omega
  have h16 : (16 * 256 + nid) / 256 % 256 = 16 := by omega
  have h27 : (27 * 256 + nid) / 256 % 256 = 27 := by omega
  have h58 : (58 * 256 + nid) / 256 % 256 = 58 := by omega
  refine ⟨fun hl => ⟨?_, ?_⟩, fun hl => ⟨?_, ?_⟩, fun hl => ⟨?_, ?_⟩, fun hl => ⟨?_, ?_⟩,
    fun hl => ⟨?_, ?_⟩, fun hl => ?_, fun hl => ?_⟩
  · simp [CoreProtocol.parse_message, CoreProtocol.extract_packet_type, h9,
      CoreProtocol.parse_status_1, hl]
  · simp [VescProtocol.parse_can_message, h9, VescProtocol.parse_can_status_1, hl,
      Except.map, VescProtocol.isRaise]
  · simp [CoreProtocol.parse_message, CoreProtocol.extract_packet_type, h14,
      CoreProtocol.parse_status_2, hl]
  · simp [VescProtocol.parse_can_message, h14, VescProtocol.parse_can_status_2, hl,
      Except.map, VescProtocol.isRaise]
  · simp [CoreProtocol.parse_message, CoreProtocol.extract_packet_type, h15,
      CoreProtocol.parse_status_3, hl]
  · simp [VescProtocol.parse_can_message, h15, VescProtocol.parse_can_status_3, hl,
      Except.map, VescProtocol.isRaise]
  · simp [CoreProtocol.parse_message, CoreProtocol.extract_packet_type, h16,
      CoreProtocol.parse_status_4, hl]
  · simp [VescProtocol.parse_can_message, h16, VescProtocol.parse_can_status_4, hl,
      Except.map, VescProtocol.isRaise]
  · simp [CoreProtocol.parse_message, CoreProtocol.extract_packet_type, h58,
      CoreProtocol.parse_status_6, hl]
  · simp [VescProtocol.parse_can_message, h58, VescProtocol.parse_can_status_6, hl,
      Except.map, VescProtocol.isRaise]
  · simp [CoreProtocol.parse_message, CoreProtocol.extract_packet_type, h27,
      CoreProtocol.parse_status_5, hl]
  · simp [VescProtocol.parse_can_message, h27, VescProtocol.parse_can_status_5, hl,
      Except.map, VescProtocol.isRaise]

/-- Witness for C6: the 4-byte status-1 frame from node 1; the amended
theorem applied at the concrete input. -/
theorem claim6_witness :
    CoreProtocol.parse_message (9 * 256 + 1) [0, 0, 0, 100] = none ∧
    VescProtocol.isRaise (VescProtocol.parse_can_message 0 (9 * 256 + 1) [0, 0, 0, 100]) = true := by
  have h := claim6_amended 0 1 [0, 0, 0, 100] (by decide)
  exact h.1 (by decide)

/-- Helper: the table-driven CRC16 state stays below 2^16. -/
theorem crc16_lt (l : List Nat) : ∀ c : Nat, c < 65536 → VescProtocol.crc16 l c < 65536 := by
  induction l with
  | nil =>
    intro c hc
    exact hc
  | cons b t ih =>
    intro c hc
    have hstep : (((c <<< 8) ^^^ VescProtocol.crc16_tab (((c >>> 8) ^^^ b) &&& 0xFF)) &&& 0xFFFF)
        < 65536 := Nat.lt_succ_of_le (Nat.and_le_right)
    exact ih _ hstep

/-- Helper: getD past two explicit heads. -/
theorem getD_cons_add_two (a b : Nat) (l : List Nat) (k : Nat) :
    (a :: b :: l).getD (2 + k) 0 = l.getD k 0 := by
  rw [show 2 + k = k + 1 + 1 by omega]
  rw [List.getD_cons_succ, List.getD_cons_succ]

/-- Helper: getD past three explicit heads. -/
theorem getD_cons_add_three (a b c : Nat) (l : List Nat) (k : Nat) :
    (a :: b :: c :: l).getD (3 + k) 0 = l.getD k 0 := by
  rw [show 3 + k = k + 1 + 1 + 1 by omega]
  rw [List.getD_cons_succ, List.getD_cons_succ, List.getD_cons_succ]

/-- Helper: a list ending in the three bytes c1, c2, 3 has last element 3. -/
theorem getLast_crc_end (l : List Nat) (c1 c2 : Nat) :
    (l ++ [c1, c2, 3]).getLast? = some 3 := by
  rw [show l ++ [c1, c2, 3] = (l ++ [c1, c2]) ++ [3] by simp]
  exact List.getLast?_concat _

/-- Helper: parse_uart_packet recovers the command and payload from a
well-formed short packet (start byte 0x02). -/
theorem parse_uart_short (cmd : Nat) (data : List Nat) (c1 c2 n : Nat)
    (hn : n = data.length + 1) (hn255 : n ≤ 255)
    (hcmd : VescProtocol.isVESCCommand cmd = true)
    (hc12 : c1 * 256 + c2 = VescProtocol.crc16 (n :: cmd :: data) 0) :
    VescProtocol.parse_uart_packet (2 :: n :: ((cmd :: data) ++ [c1, c2, 3])) =
      some (cmd, data) := by
  have hlcd : (cmd :: data).length = n := by simp [hn]
  have hplen : (2 :: n :: ((cmd :: data) ++ [c1, c2, 3])).length = n + 5 := by
    simp
    omega
  have hg0 : (2 :: n :: ((cmd :: data) ++ [c1, c2, 3])).getD 0 0 = 2 := rfl
  have hg1 : (2 :: n :: ((cmd :: data) ++ [c1, c2, 3])).getD 1 0 = n := rfl
  have e1 : ((cmd :: data) ++ [c1, c2, 3]).getD n 0 = c1 := by
    rw [List.getD_append_right _ _ _ _ (le_of_eq hlcd)]
    rw [hlcd]
    simp
  have e2 : ((cmd :: data) ++ [c1, c2, 3]).getD (n + 1) 0 = c2 := by
    rw [List.getD_append_right _ _ _ _ (by omega)]
    rw [hlcd]
    rw [show n + 1 - n = 1 by omega]
    rfl
  have e3 : ((cmd :: data) ++ [c1, c2, 3]).getD (n + 2) 0 = 3 := by
    rw [List.getD_append_right _ _ _ _ (by omega)]
    rw [hlcd]
    rw [show n + 2 - n = 2 by omega]
    rfl
  have htake : ((cmd :: data) ++ [c1, c2, 3]).take n = cmd :: data := List.take_left' hlcd
  simp only [VescProtocol.parse_uart_packet, VescProtocol.parse_uart_tail, hplen, hg0, hg1]
  rw [if_pos trivial]
  rw [if_neg (show ¬ n + 5 < 6 by omega)]
  rw [if_neg (show ¬ n + 5 < 2 + n + 3 by omega)]
  rw [show 2 + n + 2 = 2 + (n + 2) by omega]
  rw [getD_cons_add_two 2 n (cmd :: data ++ [c1, c2, 3]) (n + 2), e3]
  rw [if_neg (show ¬ (3 : Nat) ≠ 3 by simp)]
  rw [getD_cons_add_two 2 n (cmd :: data ++ [c1, c2, 3]) n, e1]
  rw [show 2 + n + 1 = 2 + (n + 1) by omega]
  rw [getD_cons_add_two 2 n (cmd :: data ++ [c1, c2, 3]) (n + 1), e2]
  rw [show (2 :: n :: (cmd :: data ++ [c1, c2, 3])).drop 1 = n :: (cmd :: data ++ [c1, c2, 3])
    from rfl]
  rw [show 2 + n - 1 = n + 1 by omega]
  rw [List.take_succ_cons, htake]
  rw [if_neg (show ¬ c1 * 256 + c2 ≠ VescProtocol.crc16 (n :: cmd :: data) 0 by simp [hc12])]
  rw [show (2 :: n :: (cmd :: data ++ [c1, c2, 3])).drop 2 = cmd :: data ++ [c1, c2, 3]
    from rfl]
  rw [htake]
  simp [hcmd]

/-- Helper: parse_uart_packet recovers the command and payload from a
well-formed long packet (start byte 0x03, two length bytes). -/
theorem parse_uart_long (cmd : Nat) (data : List Nat) (c1 c2 n : Nat)
    (hn : n = data.length + 1) (hn255 : 255 < n) (hn65535 : n ≤ 65535)
    (hcmd : VescProtocol.isVESCCommand cmd = true)
    (hc12 : c1 * 256 + c2 = VescProtocol.crc16 (n / 256 :: n % 256 :: cmd :: data) 0) :
    VescProtocol.parse_uart_packet (3 :: n / 256 :: n % 256 :: ((cmd :: data) ++ [c1, c2, 3])) =
      some (cmd, data) := by
  have hlcd : (cmd :: data).length = n := by simp [hn]
  have hplen : (3 :: n / 256 :: n % 256 :: ((cmd :: data) ++ [c1, c2, 3])).length = n + 6 := by
    simp
    omega
  have hg0 : (3 :: n / 256 :: n % 256 :: ((cmd :: data) ++ [c1, c2, 3])).getD 0 0 = 3 := rfl
  have hg1 : (3 :: n / 256 :: n % 256 :: ((cmd :: data) ++ [c1, c2, 3])).getD 1 0 = n / 256 := rfl
  have hg2 : (3 :: n / 256 :: n % 256 :: ((cmd :: data) ++ [c1, c2, 3])).getD 2 0 = n % 256 := rfl
  have hrecon : n / 256 * 256 + n % 256 = n := by omega
  have e1 : ((cmd :: data) ++ [c1, c2, 3]).getD n 0 = c1 := by
    rw [List.getD_append_right _ _ _ _ (le_of_eq hlcd)]
    rw [hlcd]
    simp
  have e2 : ((cmd :: data) ++ [c1, c2, 3]).getD (n + 1) 0 = c2 := by
    rw [List.getD_append_right _ _ _ _ (by omega)]
    rw [hlcd]
    rw [show n + 1 - n = 1 by omega]
    rfl
  have e3 : ((cmd :: data) ++ [c1, c2, 3]).getD (n + 2) 0 = 3 := by
    rw [List.getD_append_right _ _ _ _ (by omega)]
    rw [hlcd]
    rw [show n + 2 - n = 2 by omega]
    rfl
  have htake : ((cmd :: data) ++ [c1, c2, 3]).take n = cmd :: data := List.take_left' hlcd
  simp only [VescProtocol.parse_uart_packet, VescProtocol.parse_uart_tail, hplen, hg0, hg1, hg2]
  rw [if_neg (show ¬ n + 6 < 5 by omega)]
  rw [if_neg (show ¬ (3 : Nat) = 2 by omega)]
  rw [if_pos trivial]
  rw [if_neg (show ¬ n + 6 < 7 by omega)]
  rw [hrecon]
  rw [if_neg (show ¬ n + 6 < 3 + n + 3 by omega)]
  rw [show 3 + n + 2 = 3 + (n + 2) by omega]
  rw [getD_cons_add_three 3 (n / 256) (n % 256) (cmd :: data ++ [c1, c2, 3]) (n + 2), e3]
  rw [if_neg (show ¬ (3 : Nat) ≠ 3 by simp)]
  rw [getD_cons_add_three 3 (n / 256) (n % 256) (cmd :: data ++ [c1, c2, 3]) n, e1]
  rw [show 3 + n + 1 = 3 + (n + 1) by omega]
  rw [getD_cons_add_three 3 (n / 256) (n % 256) (cmd :: data ++ [c1, c2, 3]) (n + 1), e2]
  rw [show (3 :: n / 256 :: n % 256 :: (cmd :: data ++ [c1, c2, 3])).drop 1 =
      n / 256 :: n % 256 :: (cmd :: data ++ [c1, c2, 3]) from rfl]
  rw [show 3 + n - 1 = n + 1 + 1 by omega]
  rw [List.take_succ_cons, List.take_succ_cons, htake]
  rw [if_neg (show ¬ c1 * 256 + c2 ≠
      VescProtocol.crc16 (n / 256 :: n % 256 :: cmd :: data) 0 by simp [hc12])]
  rw [show (3 :: n / 256 :: n % 256 :: (cmd :: data ++ [c1, c2, 3])).drop 3 =
      cmd :: data ++ [c1, c2, 3] from rfl]
  rw [htake]
  simp [hcmd]

/-- Helper: create_uart_packet raises struct.error whenever the
command-plus-payload length exceeds the two length bytes. -/
theorem create_uart_packet_overflow (cmd : Nat) (data : List Nat) (hcmd : cmd < 256)
    (h : 65535 < data.length + 1) :
    VescProtocol.create_uart_packet cmd data = .error .structError := by
  simp only [VescProtocol.create_uart_packet, List.length_cons]
  rw [if_neg (by omega), if_neg (by omega), if_neg (by omega)]

/-- C7 counterexample — create_uart_packet cannot encode every payload: for
a 65535-byte payload the command-plus-payload length is 65536, which does
not fit the two length bytes, and struct.pack raises struct.error, so no
packet is produced and no round trip exists at this input. -/
theorem claim7_counterexample :
    VescProtocol.create_uart_packet 4 (List.replicate 65535 0) = .error .structError :=
  create_uart_packet_overflow 4 _ (by norm_num) (by rw [List.length_replicate]; omega)

/-- C7 (amended) — for every VESCCommands command id and every payload of at
most 65534 bytes, create_uart_packet builds
start | length (1 byte below 256, else 2 bytes big-endian) | command |
payload | crc16 big-endian over length..payload | end byte 0x03, with start
byte 0x02 when command-plus-payload fits one length byte and 0x03 otherwise,
and parse_uart_packet returns exactly the original command and payload;
payloads beyond 65534 bytes raise struct.error and produce no packet. -/
theorem claim7_roundtrip (cmd : Nat) (data : List Nat)
    (hcmd : VescProtocol.isVESCCommand cmd = true) (hlen : data.length ≤ 65534) :
    ∃ pkt, VescProtocol.create_uart_packet cmd data = .ok pkt ∧
      VescProtocol.parse_uart_packet pkt = some (cmd, data) ∧
      pkt.getD 0 0 = (if data.length + 1 ≤ 255 then 2 else 3) ∧
      pkt.getLast? = some 3 := by
  have hcmd256 : cmd < 256 := by
    unfold VescProtocol.isVESCCommand at hcmd
    simp at hcmd
    omega
  by_cases hshort : data.length + 1 ≤ 255
  · refine ⟨2 :: (data.length + 1) ::
      (cmd :: data ++ [VescProtocol.crc16 ((data.length + 1) :: cmd :: data) 0 / 256,
        VescProtocol.crc16 ((data.length + 1) :: cmd :: data) 0 % 256, 3]), ?_, ?_, ?_, ?_⟩
    · simp only [VescProtocol.create_uart_packet, List.length_cons]
      rw [if_neg (by omega), if_pos hshort]
      simp [List.cons_append]
    · exact parse_uart_short cmd data _ _ (data.length + 1) rfl hshort hcmd (by omega)
    · rw [if_pos hshort]
      rfl
    · exact getLast_crc_end (2 :: (data.length + 1) :: cmd :: data) _ _
  · refine ⟨3 :: ((data.length + 1) / 256) :: ((data.length + 1) % 256) ::
      (cmd :: data ++
        [VescProtocol.crc16 ((data.length + 1) / 256 :: (data.length + 1) % 256 :: cmd :: data)
          0 / 256,
         VescProtocol.crc16 ((data.length + 1) / 256 :: (data.length + 1) % 256 :: cmd :: data)
          0 % 256, 3]), ?_, ?_, ?_, ?_⟩
    · simp only [VescProtocol.create_uart_packet, List.length_cons]
      rw [if_neg (by omega), if_neg hshort, if_pos (by omega)]
      simp [List.cons_append]
    · exact parse_uart_long cmd data _ _ (data.length + 1) rfl (by omega) (by omega) hcmd
        (by omega)
    · rw [if_neg hshort]
      rfl
    · exact getLast_crc_end
        (3 :: (data.length + 1) / 256 :: (data.length + 1) % 256 :: cmd :: data) _ _

/-- Witness for C7 at command GET_VALUES (4) with payload bytes 10, 20. -/
theorem claim7_witness :
    ∃ pkt, VescProtocol.create_uart_packet 4 [10, 20] = .ok pkt ∧
      VescProtocol.parse_uart_packet pkt = some (4, [10, 20]) ∧
      pkt.getD 0 0 = (if ([10, 20] : List Nat).length + 1 ≤ 255 then 2 else 3) ∧
      pkt.getLast? = some 3 :=
  claim7_roundtrip 4 [10, 20] (by decide) (by decide)

/-- C8 counterexample — vesc_can parse_can_status_1 embeds the wall-clock
time of the call in the record (timestamp = time.time()), so decoding the
same status-1 payload at two different times yields different records,
refuting bit-for-bit idempotence of the decode output. -/
theorem claim8_counterexample :
    VescProtocol.parse_can_status_1 0 [0, 0, 5, 220, 0, 75, 0, 250] ≠
    VescProtocol.parse_can_status_1 1 [0, 0, 5, 220, 0, 75, 0, 250] := by
  intro h
  simp [VescProtocol.parse_can_status_1] at h

/-- C8 (amended) — decoding the same raw status-1 frame twice yields records
identical in every decoded field (rpm, current, duty); the only component
that can differ between the two calls of vesc_can parse_can_status_1 is the
capture timestamp, which equals each call's wall-clock time.  (Core
parse_status_1 carries no timestamp, so its records are fully identical.) -/
theorem claim8_amended (t1 t2 : ℚ) (d : List Nat) :
    (VescProtocol.parse_can_status_1 t1 d).map (fun r => (r.rpm, r.current, r.duty)) =
      (VescProtocol.parse_can_status_1 t2 d).map (fun r => (r.rpm, r.current, r.duty)) ∧
    (VescProtocol.parse_can_status_1 t1 d).map (fun r => r.timestamp) =
      (VescProtocol.parse_can_status_1 t1 d).map (fun _ => t1) := by
  unfold VescProtocol.parse_can_status_1
  by_cases hl : d.length < 8 <;> simp [hl, Except.map]

/-- C9 — the receive worker's overflow policy: when the queue holds exactly
its capacity, the arriving frame evicts the oldest buffered frame (the FIFO
head) and is admitted at the back; the queue keeps its size, ends with the
new frame, and any enqueue from a state within capacity stays within
capacity. -/
theorem claim9_overflow (cap : Nat) (q : List CanInterface.CANMessage)
    (m : CanInterface.CANMessage) (hfull : q.length = cap) (hpos : 0 < cap) :
    CanInterface.enqueueRecv cap q m = q.drop 1 ++ [m] ∧
    (CanInterface.enqueueRecv cap q m).length = cap ∧
    (CanInterface.enqueueRecv cap q m).getLast? = some m ∧
    ∀ q2 : List CanInterface.CANMessage, q2.length ≤ cap →
      (CanInterface.enqueueRecv cap q2 m).length ≤ cap := by
  have hne : q ≠ [] := by
    intro hq
    rw [hq] at hfull
    simp at hfull
    omega
  obtain ⟨a, rest, rfl⟩ := List.exists_cons_of_ne_nil hne
  have hlt : ¬ (a :: rest).length < cap := by omega
  have hstep : CanInterface.enqueueRecv cap (a :: rest) m = rest ++ [m] := by
    unfold CanInterface.enqueueRecv
    rw [if_neg hlt]
  have hlen : rest.length + 1 = cap := by
    simpa using hfull
  refine ⟨?_, ?_, ?_, ?_⟩
  · rw [hstep]
    simp
  · rw [hstep]
    simp
    omega
  · rw [hstep]
    exact List.getLast?_concat _
  · intro q2 hq2
    unfold CanInterface.enqueueRecv
    by_cases h2 : q2.length < cap
    · rw [if_pos h2]
      simp
      omega
    · rw [if_neg h2]
      match q2, hq2 with
      | [], _ => simp
      | b :: r, hq2 =>
        simp at hq2 ⊢
        omega

/-- Witness for C9 at a full queue of capacity 2. -/
theorem claim9_witness :
    CanInterface.enqueueRecv 2 [⟨2305, [1], 0⟩, ⟨2305, [2], 0⟩] ⟨2305, [3], 0⟩ =
      [⟨2305, [2], 0⟩] ++ [⟨2305, [3], 0⟩] ∧
    (CanInterface.enqueueRecv 2 [⟨2305, [1], 0⟩, ⟨2305, [2], 0⟩] ⟨2305, [3], 0⟩).length = 2 ∧
    (CanInterface.enqueueRecv 2 [⟨2305, [1], 0⟩, ⟨2305, [2], 0⟩] ⟨2305, [3], 0⟩).getLast? =
      some ⟨2305, [3], 0⟩ ∧
    ∀ q2 : List CanInterface.CANMessage, q2.length ≤ 2 →
      (CanInterface.enqueueRecv 2 q2 ⟨2305, [3], 0⟩).length ≤ 2 := by
  have h := claim9_overflow 2 [⟨2305, [1], 0⟩, ⟨2305, [2], 0⟩] ⟨2305, [3], 0⟩ (by decide)
    (by decide)
  exact h

/-- Helper: association-list lookup distributes over append. -/
theorem lookup_append {β : Type} (l₁ l₂ : List (Nat × β)) (k : Nat) :
    (l₁ ++ l₂).lookup k = (l₁.lookup k).or (l₂.lookup k) := by
  induction l₁ with
  | nil => simp [List.lookup]
  | cons a t ih =>
    obtain ⟨a1, a2⟩ := a
    by_cases hk : k = a1
    · subst hk
      simp [List.lookup]
    · have hb : (k == a1) = false := beq_false_of_ne hk
      simp [List.lookup, hb]
      exact ih

/-- Helper: mutating the dict object behind reference `r` does not change
the binding looked up at any other reference. -/
theorem lookup_map_mutate (l : List (Nat × CanService.StatusDict)) (r ref : Nat)
    (k : String) (v : ℚ) (h : ref ≠ r) :
    (l.map (fun p => if p.1 = r then (p.1, (k, v) :: p.2) else p)).lookup ref = l.lookup ref := by
  induction l with
  | nil => simp
  | cons a t ih =>
    obtain ⟨a1, a2⟩ := a
    simp only [List.map_cons]
    by_cases ha : a1 = r
    · rw [if_pos ha]
      have hb : (ref == a1) = false := beq_false_of_ne (by omega)
      rw [List.lookup_cons, List.lookup_cons, hb]
      exact ih
    · rw [if_neg ha]
      rw [List.lookup_cons, List.lookup_cons]
      cases hba : (ref == a1) with
      | true => rfl
      | false => exact ih

/-- C10 — get_cached_status never returns None (despite the Optional
annotation): it returns a freshly allocated copy of the cached per-node dict
(the empty dict for an unknown node), the call leaves every cached dict's
contents unchanged, and mutating the returned dict leaves the service's
cache unchanged. -/
theorem claim10_cached_copy (h : CanService.Heap) (svc : CanService.SvcSt) (node : Nat)
    (hwf : CanService.WF h svc) :
    (CanService.get_cached_status h svc node).1 ≠ none ∧
    (∀ r, (CanService.get_cached_status h svc node).1 = some r →
      CanService.heapGet (CanService.get_cached_status h svc node).2 r =
        (match svc.cacheRefs.lookup node with
         | some ref => CanService.heapGet h ref
         | none => [])) ∧
    (∀ n2 ref, svc.cacheRefs.lookup n2 = some ref →
      CanService.heapGet (CanService.get_cached_status h svc node).2 ref =
        CanService.heapGet h ref) ∧
    (∀ (k : String) (v : ℚ) (r : Nat), (CanService.get_cached_status h svc node).1 = some r →
      ∀ n2 ref, svc.cacheRefs.lookup n2 = some ref →
        CanService.heapGet
          (CanService.mutateObj (CanService.get_cached_status h svc node).2 r k v) ref =
          CanService.heapGet h ref) := by
  obtain ⟨hobjs, hrefs⟩ := hwf
  have hfreshlk : ∀ c : CanService.StatusDict,
      (h.objs ++ [(h.next, c)]).lookup h.next = some c := by
    intro c
    rw [lookup_append]
    cases hl : h.objs.lookup h.next with
    | none => simp [List.lookup]
    | some v => exact absurd (hobjs _ (lookup_mem _ _ _ hl)) (lt_irrefl _)
  have hold : ∀ ref, ref < h.next → ∀ c : CanService.StatusDict,
      (h.objs ++ [(h.next, c)]).lookup ref = h.objs.lookup ref := by
    intro ref hr c
    rw [lookup_append]
    cases hl : h.objs.lookup ref with
    | some v => rfl
    | none =>
      have hb : (ref == h.next) = false := beq_false_of_ne (by omega)
      simp [List.lookup, hb]
  refine ⟨by simp [CanService.get_cached_status], ?_, ?_, ?_⟩
  · intro r hr
    have hrn : r = h.next := by
      simp [CanService.get_cached_status] at hr
      omega
    subst hrn
    show ((h.objs ++ [(h.next, _)]).lookup h.next).getD [] = _
    rw [hfreshlk]
    rfl
  · intro n2 ref href
    have hlt : ref < h.next := hrefs _ (lookup_mem _ _ _ href)
    show ((h.objs ++ [(h.next, _)]).lookup ref).getD [] = _
    rw [hold ref hlt]
    rfl
  · intro k v r hr n2 ref href
    have hrn : r = h.next := by
      simp [CanService.get_cached_status] at hr
      omega
    subst hrn
    have hlt : ref < h.next := hrefs _ (lookup_mem _ _ _ href)
    show (((h.objs ++ [(h.next, _)]).map _).lookup ref).getD [] = _
    rw [lookup_map_mutate _ _ _ _ _ (by omega)]
    rw [hold ref hlt]
    rfl

/-- Witness for C10: a service caching one dict for node 74 in a
well-formed heap; the theorem applied at the concrete state. -/
theorem claim10_witness :
    (CanService.get_cached_status ⟨[(0, [("rpm", 100)])], 1⟩ ⟨[(74, 0)]⟩ 74).1 ≠ none ∧
    (∀ r, (CanService.get_cached_status ⟨[(0, [("rpm", 100)])], 1⟩ ⟨[(74, 0)]⟩ 74).1 = some r →
      CanService.heapGet (CanService.get_cached_status ⟨[(0, [("rpm", 100)])], 1⟩ ⟨[(74, 0)]⟩ 74).2
        r =
        (match (⟨[(74, 0)]⟩ : CanService.SvcSt).cacheRefs.lookup 74 with
         | some ref => CanService.heapGet ⟨[(0, [("rpm", 100)])], 1⟩ ref
         | none => [])) ∧
    (∀ n2 ref, (⟨[(74, 0)]⟩ : CanService.SvcSt).cacheRefs.lookup n2 = some ref →
      CanService.heapGet (CanService.get_cached_status ⟨[(0, [("rpm", 100)])], 1⟩ ⟨[(74, 0)]⟩ 74).2
        ref = CanService.heapGet ⟨[(0, [("rpm", 100)])], 1⟩ ref) ∧
    (∀ (k : String) (v : ℚ) (r : Nat),
      (CanService.get_cached_status ⟨[(0, [("rpm", 100)])], 1⟩ ⟨[(74, 0)]⟩ 74).1 = some r →
      ∀ n2 ref, (⟨[(74, 0)]⟩ : CanService.SvcSt).cacheRefs.lookup n2 = some ref →
        CanService.heapGet
          (CanService.mutateObj
            (CanService.get_cached_status ⟨[(0, [("rpm", 100)])], 1⟩ ⟨[(74, 0)]⟩ 74).2 r k v) ref =
          CanService.heapGet ⟨[(0, [("rpm", 100)])], 1⟩ ref) :=
  claim10_cached_copy ⟨[(0, [("rpm", 100)])], 1⟩ ⟨[(74, 0)]⟩ 74
    ⟨by simp, by simp⟩

end RPiCAN
